import Mathlib

/-!
Verification of the dithering pipeline in src/dither.cpp (JCash/dither).

The development shallowly embeds the arithmetic core of the program:
the interleaved-gradient noise generator, the Bayer threshold map, the
noise quantizer (addNoise and its per-channel bias), and the pixel codecs
between 8-bit RGBA and the packed 16-bit RGB565 / RGBA4444 formats.

Machine integers are modelled as Nat (uint8_t, uint16_t, uint32_t values)
and Int (int8_t, int16_t intermediates); float values are modelled as
exact rationals. The float-to-integer conversions performed by C casts
truncate toward zero, which truncTowardZero captures. The decimal float
constants of the noise function are modelled by the exact decimal
rationals written in the source; every property proved about them below
depends only on their sign, not on their last-bit float value.
-/

set_option maxRecDepth 8192

/-- Truncation toward zero, the conversion C performs when a float value is
cast to an integer type, as in the expression (int32_t)v inside fract and in
passing the float bias to the int8_t parameter of addNoise. -/
def truncTowardZero (q : ℚ) : ℤ := if 0 ≤ q then ⌊q⌋ else ⌈q⌉

/-- fract from dither.cpp line 186: f = v - (int32_t)v. -/
def fract (v : ℚ) : ℚ := v - truncTowardZero v

/-- InterleavedGradientNoise from dither.cpp line 195:
fract(magic2 * fract(u * magic0 + v * magic1)) with the magic constants
0.06711056, 0.00583715, 52.9829189 taken as exact decimals. -/
def InterleavedGradientNoise (u v : ℚ) : ℚ :=
  fract (52.9829189 * fract (u * 0.06711056 + v * 0.00583715))

/-- The hard-coded integer matrices of computeBayerThresholdMap
(dither.cpp lines 19-44), row-major. For any n other than 4 and 8 the C
function copies nothing into M, so the model returns the empty list. -/
def bayerRaw (n : ℕ) : List ℕ :=
  if n = 4 then
    [0, 8, 2, 10,
     12, 4, 14, 6,
     3, 11, 1, 9,
     15, 7, 13, 5]
  else if n = 8 then
    [0, 32, 8, 40, 2, 34, 10, 42,
     48, 16, 56, 24, 50, 18, 58, 26,
     12, 44, 4, 36, 14, 46, 6, 38,
     60, 28, 52, 20, 62, 30, 54, 22,
     3, 35, 11, 43, 1, 33, 9, 41,
     51, 19, 59, 27, 49, 17, 57, 25,
     15, 47, 7, 39, 13, 45, 5, 37,
     63, 31, 55, 23, 61, 29, 53, 21]
  else []

/-- The normalization loop of computeBayerThresholdMap (dither.cpp lines
45-49): M[i] = M[i] * (1/(n*n)) - 0.5. -/
def computeBayerThresholdMap (n : ℕ) : List ℚ :=
  (bayerRaw n).map (fun v => (v : ℚ) * (1 / ((n * n : ℕ) : ℚ)) - 0.5)

/-- addNoise from dither.cpp lines 201-209: the int16_t sum v_in + noise is
clamped to the byte range and returned as uint8_t. -/
def addNoise (v_in : ℕ) (noise : ℤ) : ℕ :=
  if (v_in : ℤ) + noise > 255 then 255
  else if (v_in : ℤ) + noise < 0 then 0
  else ((v_in : ℤ) + noise).toNat

/-- One dithered channel exactly as the call sites in
ditherInterleavedGradientRGBA4444 / RGBx565 produce it:
addNoise(v, rnd * bpp_mul - bpp_bias) with bpp_bias = bpp_mul / 2, where
passing the float bias to the int8_t parameter truncates it toward zero. -/
def addNoiseBiased (v : ℕ) (rnd : ℚ) (bpp_mul : ℕ) : ℕ :=
  addNoise v (truncTowardZero (rnd * (bpp_mul : ℚ) - ((bpp_mul / 2 : ℕ) : ℚ)))

/-- The per-pixel body of ditherInterleavedGradientRGBA4444 (dither.cpp
lines 212-234): bpp_mul = 16, bpp_bias = 8; the second channel uses
(1 - rnd) in place of rnd. -/
def ditherPixel4444 (p : ℕ × ℕ × ℕ × ℕ) (rnd : ℚ) : ℕ × ℕ × ℕ × ℕ :=
  let bpp_mul : ℕ := 16
  let bpp_bias : ℕ := bpp_mul / 2
  (addNoise p.1 (truncTowardZero (rnd * (bpp_mul : ℚ) - (bpp_bias : ℚ))),
   addNoise p.2.1 (truncTowardZero ((1 - rnd) * (bpp_mul : ℚ) - (bpp_bias : ℚ))),
   addNoise p.2.2.1 (truncTowardZero (rnd * (bpp_mul : ℚ) - (bpp_bias : ℚ))),
   addNoise p.2.2.2 (truncTowardZero (rnd * (bpp_mul : ℚ) - (bpp_bias : ℚ))))

/-- The per-pixel body of ditherInterleavedGradientRGBx565 (dither.cpp
lines 236-259): bpp_mul_5 = 8 for channels 0 and 2, bpp_mul_6 = 4 for
channel 1 which uses (1 - rnd); channel 3 is left untouched. -/
def ditherPixel565 (p : ℕ × ℕ × ℕ × ℕ) (rnd : ℚ) : ℕ × ℕ × ℕ × ℕ :=
  let bpp_mul_5 : ℕ := 8
  let bpp_bias_5 : ℕ := bpp_mul_5 / 2
  let bpp_mul_6 : ℕ := 4
  let bpp_bias_6 : ℕ := bpp_mul_6 / 2
  (addNoise p.1 (truncTowardZero (rnd * (bpp_mul_5 : ℚ) - (bpp_bias_5 : ℚ))),
   addNoise p.2.1 (truncTowardZero ((1 - rnd) * (bpp_mul_6 : ℚ) - (bpp_bias_6 : ℚ))),
   addNoise p.2.2.1 (truncTowardZero (rnd * (bpp_mul_5 : ℚ) - (bpp_bias_5 : ℚ))),
   p.2.2.2)

/-- Field expansion used by RGB565ToRGBA8888: (r5 * 255 + 15) / 31. -/
def expand5 (f : ℕ) : ℕ := (f * 255 + 15) / 31

/-- Field expansion used by RGB565ToRGBA8888: (g6 * 255 + 31) / 63. -/
def expand6 (f : ℕ) : ℕ := (f * 255 + 31) / 63

/-- Field expansion used by RGBA4444ToRGBA8888: (f4 * 255 + 7) / 15. -/
def expand4 (f : ℕ) : ℕ := (f * 255 + 7) / 15

/-- RGB565ToRGBA8888 (dither.cpp lines 66-80) on one 16-bit pixel value:
extract the 5/6/5 fields, expand each to 8 bits, alpha is the constant 255. -/
def RGB565ToRGBA8888 (c : ℕ) : ℕ × ℕ × ℕ × ℕ :=
  (expand5 ((c >>> 11) &&& 0x1f),
   expand6 ((c >>> 5) &&& 0x3f),
   expand5 ((c >>> 0) &&& 0x1f),
   255)

/-- RGBA8888ToRGB565 (dither.cpp lines 82-96) on one pixel: take the top
5/6/5 bits of R, G, B and pack them; alpha is dropped. -/
def RGBA8888ToRGB565 (p : ℕ × ℕ × ℕ × ℕ) : ℕ :=
  (((p.1 >>> 3) &&& 0x1f) <<< 11) |||
  (((p.2.1 >>> 2) &&& 0x3f) <<< 5) |||
  ((p.2.2.1 >>> 3) &&& 0x1f)

/-- RGBA4444ToRGBA8888 (dither.cpp lines 98-114) on one 16-bit pixel value:
extract the four 4-bit fields and expand each to 8 bits. -/
def RGBA4444ToRGBA8888 (c : ℕ) : ℕ × ℕ × ℕ × ℕ :=
  (expand4 ((c >>> 12) &&& 0xf),
   expand4 ((c >>> 8) &&& 0xf),
   expand4 ((c >>> 4) &&& 0xf),
   expand4 ((c >>> 0) &&& 0xf))

/-- RGBA8888ToRGBA4444 (dither.cpp lines 116-127) on one pixel: take the
top 4 bits of each channel and pack them. -/
def RGBA8888ToRGBA4444 (p : ℕ × ℕ × ℕ × ℕ) : ℕ :=
  ((p.1 >>> 4) <<< 12) |||
  ((p.2.1 >>> 4) <<< 8) |||
  ((p.2.2.1 >>> 4) <<< 4) |||
  (p.2.2.2 >>> 4)

/-- Outcome of a run of main (dither.cpp lines 262-334). wrotePng records
whether one of the two conversion paths actually filled the 32-bit output
buffer before it was written to disk; main always writes the buffer and
returns 0 once the image loads. -/
inductive MainOutput where
  | errNoPath : MainOutput
  | errLoadFailed : MainOutput
  | wrotePng : Bool → MainOutput
deriving DecidableEq

/-- Control flow of main: missing path and failed load exit early with
code 1; otherwise the 16-bit and 32-bit buffers are allocated, the channel
count selects the RGBA4444 path (4), the RGB565 path (3), or no conversion
at all, and the 32-bit buffer is written out unconditionally. -/
def mainModel (hasPathArg : Bool) (loadOk : Bool) (numchannels : ℕ) : MainOutput :=
  if !hasPathArg then MainOutput.errNoPath
  else if !loadOk then MainOutput.errLoadFailed
  else MainOutput.wrotePng (numchannels == 4 || numchannels == 3)

/-- Exit code of main for each outcome: 1 for the two early errors, 0
otherwise, including the case where neither conversion path ran. -/
def mainExitCode : MainOutput → ℕ
  | MainOutput.errNoPath => 1
  | MainOutput.errLoadFailed => 1
  | MainOutput.wrotePng _ => 0

/-- Modelled from the spec (section 4.3): the noise-dither quantizer as the
specification words it, result = clamp(v + round(noise * step - step/2), 0, 255)
with round-to-nearest. Stated for comparison against the code's addNoiseBiased. -/
def noiseQuantizerSpec (v : ℕ) (noise : ℚ) (step : ℕ) : ℤ :=
  max 0 (min 255 ((v : ℤ) + round (noise * (step : ℚ) - (step : ℚ) / 2)))

/-- Per-channel packaging of the round-trip accuracy requirement: the
reconstructed value is a byte and differs from the original by at most the
given bound. -/
def WithinStep (orig out bound : ℕ) : Prop :=
  out ≤ 255 ∧ ((out : ℤ) - (orig : ℤ)).natAbs ≤ bound

/-- The saturating clamp inside addNoise, written as a max/min normal form. -/
lemma addNoise_eq_clamp (v : ℕ) (n : ℤ) :
    (addNoise v n : ℤ) = max 0 (min 255 ((v : ℤ) + n)) := by
  unfold addNoise
  split_ifs with h1 h2 <;> omega

/-- Masking with 15 is reduction mod 16. -/
lemma and15 (n : ℕ) : n &&& 15 = n % 16 := by
  simpa using Nat.and_pow_two_sub_one_eq_mod n 4

/-- Masking with 31 is reduction mod 32. -/
lemma and31 (n : ℕ) : n &&& 31 = n % 32 := by
  simpa using Nat.and_pow_two_sub_one_eq_mod n 5

/-- Masking with 63 is reduction mod 64. -/
lemma and63 (n : ℕ) : n &&& 63 = n % 64 := by
  simpa using Nat.and_pow_two_sub_one_eq_mod n 6

/-- Packing three disjoint 5/6/5 bit fields by shift and or is plain
positional arithmetic. -/
lemma pack_or_565 (r g b : ℕ) (hg : g < 64) (hb : b < 32) :
    ((r <<< 11) ||| (g <<< 5) ||| b) = r * 2048 + g * 32 + b := by
  rw [Nat.shiftLeft_eq r, Nat.shiftLeft_eq g]
  rw [Nat.lor_assoc]
  rw [mul_comm g (2 ^ 5), ← Nat.mul_add_lt_is_or (show b < 2 ^ 5 by omega) g]
  rw [mul_comm r (2 ^ 11), ← Nat.mul_add_lt_is_or (show 2 ^ 5 * g + b < 2 ^ 11 by omega) r]
  ring

/-- Packing four disjoint 4-bit fields by shift and or is plain positional
arithmetic. -/
lemma pack_or_4444 (r g b a : ℕ) (hg : g < 16) (hb : b < 16) (ha : a < 16) :
    ((r <<< 12) ||| (g <<< 8) ||| (b <<< 4) ||| a) = r * 4096 + g * 256 + b * 16 + a := by
  rw [Nat.shiftLeft_eq r, Nat.shiftLeft_eq g, Nat.shiftLeft_eq b]
  rw [Nat.lor_assoc, Nat.lor_assoc]
  rw [mul_comm b (2 ^ 4), ← Nat.mul_add_lt_is_or (show a < 2 ^ 4 by omega) b]
  rw [mul_comm g (2 ^ 8), ← Nat.mul_add_lt_is_or (show 2 ^ 4 * b + a < 2 ^ 8 by omega) g]
  rw [mul_comm r (2 ^ 12), ← Nat.mul_add_lt_is_or (show 2 ^ 8 * g + (2 ^ 4 * b + a) < 2 ^ 12 by omega) r]
  ring

/-- Field extraction undoes 5/6/5 positional packing. -/
lemma extract565 (r5 g6 b5 : ℕ) (h5 : r5 < 32) (h6 : g6 < 64) (hb : b5 < 32) :
    ((r5 * 2048 + g6 * 32 + b5) >>> 11) &&& 0x1f = r5 ∧
    ((r5 * 2048 + g6 * 32 + b5) >>> 5) &&& 0x3f = g6 ∧
    ((r5 * 2048 + g6 * 32 + b5) >>> 0) &&& 0x1f = b5 := by
  simp only [Nat.shiftRight_eq_div_pow, and31, and63]
  refine ⟨?_, ?_, ?_⟩ <;> omega

/-- Field extraction undoes 4/4/4/4 positional packing. -/
lemma extract4444 (r4 g4 b4 a4 : ℕ) (h1 : r4 < 16) (h2 : g4 < 16) (h3 : b4 < 16) (h4 : a4 < 16) :
    ((r4 * 4096 + g4 * 256 + b4 * 16 + a4) >>> 12) &&& 0xf = r4 ∧
    ((r4 * 4096 + g4 * 256 + b4 * 16 + a4) >>> 8) &&& 0xf = g4 ∧
    ((r4 * 4096 + g4 * 256 + b4 * 16 + a4) >>> 4) &&& 0xf = b4 ∧
    ((r4 * 4096 + g4 * 256 + b4 * 16 + a4) >>> 0) &&& 0xf = a4 := by
  simp only [Nat.shiftRight_eq_div_pow, and15]
  refine ⟨?_, ?_, ?_, ?_⟩ <;> omega

/-- Expanding a 5-bit field and taking the top 5 bits again is the identity. -/
lemma expand5_repack : ∀ f < 32, (expand5 f >>> 3) &&& 0x1f = f := by decide

/-- Expanding a 6-bit field and taking the top 6 bits again is the identity. -/
lemma expand6_repack : ∀ f < 64, (expand6 f >>> 2) &&& 0x3f = f := by decide

/-- Expanding a 4-bit field and taking the top 4 bits again is the identity. -/
lemma expand4_repack : ∀ f < 16, expand4 f >>> 4 = f := by decide

/-- Truncating a byte to its top 4 bits and expanding stays a byte and
within 17 of the original. -/
lemma expand4_err : ∀ v < 256, expand4 (v >>> 4) ≤ 255 ∧
    expand4 (v >>> 4) ≤ v + 17 ∧ v ≤ expand4 (v >>> 4) + 17 := by decide

/-- Truncating a byte to its top 5 bits and expanding stays a byte and
within 9 of the original. -/
lemma expand5_err : ∀ v < 256, expand5 (v >>> 3) ≤ 255 ∧
    expand5 (v >>> 3) ≤ v + 9 ∧ v ≤ expand5 (v >>> 3) + 9 := by decide

/-- Truncating a byte to its top 6 bits and expanding stays a byte and
within 5 of the original. -/
lemma expand6_err : ∀ v < 256, expand6 (v >>> 2) ≤ 255 ∧
    expand6 (v >>> 2) ≤ v + 5 ∧ v ≤ expand6 (v >>> 2) + 5 := by decide

/-- fract of a nonnegative rational lies in the half-open unit interval. -/
lemma fract_mem_Ico (q : ℚ) (hq : 0 ≤ q) : 0 ≤ fract q ∧ fract q < 1 := by
  rw [fract, truncTowardZero, if_pos hq]
  have h1 := Int.floor_le q
  have h2 := Int.lt_floor_add_one q
  constructor
  · linarith
  · push_cast at h2 ⊢
    linarith

/-- Round-to-nearest of a natural fraction as exact integer division. -/
lemma round_natCast_div (p q : ℕ) (hq : 0 < q) :
    round ((p : ℚ) / q) = (2 * p + q : ℤ) / (2 * q : ℕ) := by
  rw [round_eq, show ((p : ℚ) / q + 1 / 2) = ((2 * p + q : ℤ) : ℚ) / ((2 * q : ℕ) : ℚ) by
    push_cast; field_simp; ring]
  exact Rat.floor_intCast_div_natCast _ _

/-- Claim C4: for all integer coordinates x, y with 0 <= x, y < 2^20 the
interleaved-gradient-noise value frac(c2 * frac(x*c0 + y*c1)) lies in the
half-open interval [0, 1). -/
theorem interleavedGradientNoise_mem_unit (x y : ℕ) (hx : x < 2 ^ 20) (hy : y < 2 ^ 20) :
    0 ≤ InterleavedGradientNoise x y ∧ InterleavedGradientNoise x y < 1 := by
  have h0 : (0 : ℚ) ≤ (x : ℚ) * 0.06711056 + (y : ℚ) * 0.00583715 := by positivity
  have h1 := fract_mem_Ico _ h0
  have h2 : (0 : ℚ) ≤ 52.9829189 * fract ((x : ℚ) * 0.06711056 + (y : ℚ) * 0.00583715) := by
    have h3 := h1.1
    positivity
  exact fract_mem_Ico _ h2

/-- Witness for claim C4 at coordinates (3, 5). -/
theorem interleavedGradientNoise_mem_unit_witness :
    0 ≤ InterleavedGradientNoise 3 5 ∧ InterleavedGradientNoise 3 5 < 1 := by
  have h := interleavedGradientNoise_mem_unit 3 5 (by norm_num) (by norm_num)
  simpa using h

/-- Claim C6: the integer unpack formulas (r5*255+15)/31, (g6*255+31)/63 and
(f4*255+7)/15 equal the linear rescaling field * 255 / (2^bits - 1) rounded
to the nearest integer, for every field value. -/
theorem expand_eq_round_rescale (f : ℕ) :
    (expand5 f : ℤ) = round ((f : ℚ) * 255 / 31) ∧
    (expand6 f : ℤ) = round ((f : ℚ) * 255 / 63) ∧
    (expand4 f : ℤ) = round ((f : ℚ) * 255 / 15) := by
  refine ⟨?_, ?_, ?_⟩
  · rw [show (f : ℚ) * 255 / 31 = ((f * 255 : ℕ) : ℚ) / ((31 : ℕ) : ℚ) by push_cast; ring]
    rw [round_natCast_div _ _ (by norm_num)]
    unfold expand5
    omega
  · rw [show (f : ℚ) * 255 / 63 = ((f * 255 : ℕ) : ℚ) / ((63 : ℕ) : ℚ) by push_cast; ring]
    rw [round_natCast_div _ _ (by norm_num)]
    unfold expand6
    omega
  · rw [show (f : ℚ) * 255 / 15 = ((f * 255 : ℕ) : ℚ) / ((15 : ℕ) : ℚ) by push_cast; ring]
    rw [round_natCast_div _ _ (by norm_num)]
    unfold expand4
    omega

/-- Claim C8: for any byte input the quantizer output stays in the byte
range for every bias value, produced by saturation; for any bias in the
int8_t range the exact intermediate sum also fits the int16_t range, so no
wraparound of the underlying arithmetic occurs. -/
theorem addNoise_saturates (v : ℕ) (noise : ℤ) (hv : v ≤ 255) :
    addNoise v noise ≤ 255 ∧
    (-128 ≤ noise ∧ noise ≤ 127 → -32768 ≤ (v : ℤ) + noise ∧ (v : ℤ) + noise ≤ 32767) := by
  have h := addNoise_eq_clamp v noise
  constructor
  · omega
  · intro hn
    omega

/-- Witness for claim C8 at v = 200, noise = -128. -/
theorem addNoise_saturates_witness :
    addNoise 200 (-128) ≤ 255 ∧
    (-128 ≤ (-128 : ℤ) ∧ (-128 : ℤ) ≤ 127 →
      -32768 ≤ ((200 : ℕ) : ℤ) + (-128) ∧ ((200 : ℕ) : ℤ) + (-128) ≤ 32767) :=
  addNoise_saturates 200 (-128) (by norm_num)

/-- Claim C9: with a valid path argument and a successfully decoded 2-channel
image, main selects no conversion path, still writes the untouched 32-bit
output buffer as a PNG, and exits with code 0; no unsupported-channel-count
error exists in the program. -/
theorem main_silent_on_two_channels :
    mainModel true true 2 = MainOutput.wrotePng false ∧
    mainExitCode (mainModel true true 2) = 0 := by
  decide

/-- Claim C2: packing any 8-bit RGBA quad to RGBA4444 and unpacking back
yields, in every channel, a byte value that differs from the original by at
most 17. -/
theorem rgba4444_roundtrip_within_step (r g b a : ℕ)
    (hr : r < 256) (hg : g < 256) (hb : b < 256) (ha : a < 256) :
    WithinStep r (RGBA4444ToRGBA8888 (RGBA8888ToRGBA4444 (r, g, b, a))).1 17 ∧
    WithinStep g (RGBA4444ToRGBA8888 (RGBA8888ToRGBA4444 (r, g, b, a))).2.1 17 ∧
    WithinStep b (RGBA4444ToRGBA8888 (RGBA8888ToRGBA4444 (r, g, b, a))).2.2.1 17 ∧
    WithinStep a (RGBA4444ToRGBA8888 (RGBA8888ToRGBA4444 (r, g, b, a))).2.2.2 17 := by
  have hb1 : r >>> 4 < 16 := by rw [Nat.shiftRight_eq_div_pow]; omega
  have hb2 : g >>> 4 < 16 := by rw [Nat.shiftRight_eq_div_pow]; omega
  have hb3 : b >>> 4 < 16 := by rw [Nat.shiftRight_eq_div_pow]; omega
  have hb4 : a >>> 4 < 16 := by rw [Nat.shiftRight_eq_div_pow]; omega
  have hpk : RGBA8888ToRGBA4444 (r, g, b, a)
      = (r >>> 4) * 4096 + (g >>> 4) * 256 + (b >>> 4) * 16 + (a >>> 4) := by
    show ((r >>> 4) <<< 12) ||| ((g >>> 4) <<< 8) ||| ((b >>> 4) <<< 4) ||| (a >>> 4) = _
    rw [pack_or_4444 _ _ _ _ hb2 hb3 hb4]
  obtain ⟨e1, e2, e3, e4⟩ := extract4444 _ _ _ _ hb1 hb2 hb3 hb4
  have hu1 : (RGBA4444ToRGBA8888
      ((r >>> 4) * 4096 + (g >>> 4) * 256 + (b >>> 4) * 16 + (a >>> 4))).1
      = expand4 (r >>> 4) := by
    show expand4 ((((r >>> 4) * 4096 + (g >>> 4) * 256 + (b >>> 4) * 16 + (a >>> 4)) >>> 12) &&& 0xf) = _
    rw [e1]
  have hu2 : (RGBA4444ToRGBA8888
      ((r >>> 4) * 4096 + (g >>> 4) * 256 + (b >>> 4) * 16 + (a >>> 4))).2.1
      = expand4 (g >>> 4) := by
    show expand4 ((((r >>> 4) * 4096 + (g >>> 4) * 256 + (b >>> 4) * 16 + (a >>> 4)) >>> 8) &&& 0xf) = _
    rw [e2]
  have hu3 : (RGBA4444ToRGBA8888
      ((r >>> 4) * 4096 + (g >>> 4) * 256 + (b >>> 4) * 16 + (a >>> 4))).2.2.1
      = expand4 (b >>> 4) := by
    show expand4 ((((r >>> 4) * 4096 + (g >>> 4) * 256 + (b >>> 4) * 16 + (a >>> 4)) >>> 4) &&& 0xf) = _
    rw [e3]
  have hu4 : (RGBA4444ToRGBA8888
      ((r >>> 4) * 4096 + (g >>> 4) * 256 + (b >>> 4) * 16 + (a >>> 4))).2.2.2
      = expand4 (a >>> 4) := by
    show expand4 ((((r >>> 4) * 4096 + (g >>> 4) * 256 + (b >>> 4) * 16 + (a >>> 4)) >>> 0) &&& 0xf) = _
    rw [e4]
  rw [hpk, hu1, hu2, hu3, hu4]
  have m1 := expand4_err r hr
  have m2 := expand4_err g hg
  have m3 := expand4_err b hb
  have m4 := expand4_err a ha
  simp only [WithinStep]
  refine ⟨⟨m1.1, ?_⟩, ⟨m2.1, ?_⟩, ⟨m3.1, ?_⟩, ⟨m4.1, ?_⟩⟩ <;> omega

/-- Witness for claim C2 at the quad (250, 3, 128, 17). -/
theorem rgba4444_roundtrip_within_step_witness :
    WithinStep 250 (RGBA4444ToRGBA8888 (RGBA8888ToRGBA4444 (250, 3, 128, 17))).1 17 ∧
    WithinStep 3 (RGBA4444ToRGBA8888 (RGBA8888ToRGBA4444 (250, 3, 128, 17))).2.1 17 ∧
    WithinStep 128 (RGBA4444ToRGBA8888 (RGBA8888ToRGBA4444 (250, 3, 128, 17))).2.2.1 17 ∧
    WithinStep 17 (RGBA4444ToRGBA8888 (RGBA8888ToRGBA4444 (250, 3, 128, 17))).2.2.2 17 :=
  rgba4444_roundtrip_within_step 250 3 128 17 (by decide) (by decide) (by decide) (by decide)

/-- Claim C3: packing any 8-bit RGB triple to RGB565 and unpacking back
yields R and B within 9 and G within 5 of the originals, and the unpacked
alpha is exactly 255. -/
theorem rgb565_roundtrip_within_step (r g b a : ℕ)
    (hr : r < 256) (hg : g < 256) (hb : b < 256) :
    WithinStep r (RGB565ToRGBA8888 (RGBA8888ToRGB565 (r, g, b, a))).1 9 ∧
    WithinStep g (RGB565ToRGBA8888 (RGBA8888ToRGB565 (r, g, b, a))).2.1 5 ∧
    WithinStep b (RGB565ToRGBA8888 (RGBA8888ToRGB565 (r, g, b, a))).2.2.1 9 ∧
    (RGB565ToRGBA8888 (RGBA8888ToRGB565 (r, g, b, a))).2.2.2 = 255 := by
  have hm1 : (r >>> 3) &&& 0x1f = r >>> 3 := by rw [and31, Nat.shiftRight_eq_div_pow]; omega
  have hm2 : (g >>> 2) &&& 0x3f = g >>> 2 := by rw [and63, Nat.shiftRight_eq_div_pow]; omega
  have hm3 : (b >>> 3) &&& 0x1f = b >>> 3 := by rw [and31, Nat.shiftRight_eq_div_pow]; omega
  have hb1 : r >>> 3 < 32 := by rw [Nat.shiftRight_eq_div_pow]; omega
  have hb2 : g >>> 2 < 64 := by rw [Nat.shiftRight_eq_div_pow]; omega
  have hb3 : b >>> 3 < 32 := by rw [Nat.shiftRight_eq_div_pow]; omega
  have hpk : RGBA8888ToRGB565 (r, g, b, a)
      = (r >>> 3) * 2048 + (g >>> 2) * 32 + (b >>> 3) := by
    show (((r >>> 3) &&& 0x1f) <<< 11) ||| (((g >>> 2) &&& 0x3f) <<< 5) ||| ((b >>> 3) &&& 0x1f) = _
    rw [hm1, hm2, hm3, pack_or_565 _ _ _ hb2 hb3]
  obtain ⟨e1, e2, e3⟩ := extract565 _ _ _ hb1 hb2 hb3
  have hu1 : (RGB565ToRGBA8888 ((r >>> 3) * 2048 + (g >>> 2) * 32 + (b >>> 3))).1
      = expand5 (r >>> 3) := by
    show expand5 ((((r >>> 3) * 2048 + (g >>> 2) * 32 + (b >>> 3)) >>> 11) &&& 0x1f) = _
    rw [e1]
  have hu2 : (RGB565ToRGBA8888 ((r >>> 3) * 2048 + (g >>> 2) * 32 + (b >>> 3))).2.1
      = expand6 (g >>> 2) := by
    show expand6 ((((r >>> 3) * 2048 + (g >>> 2) * 32 + (b >>> 3)) >>> 5) &&& 0x3f) = _
    rw [e2]
  have hu3 : (RGB565ToRGBA8888 ((r >>> 3) * 2048 + (g >>> 2) * 32 + (b >>> 3))).2.2.1
      = expand5 (b >>> 3) := by
    show expand5 ((((r >>> 3) * 2048 + (g >>> 2) * 32 + (b >>> 3)) >>> 0) &&& 0x1f) = _
    rw [e3]
  rw [hpk, hu1, hu2, hu3]
  have m1 := expand5_err r hr
  have m2 := expand6_err g hg
  have m3 := expand5_err b hb
  simp only [WithinStep]
  refine ⟨⟨m1.1, ?_⟩, ⟨m2.1, ?_⟩, ⟨m3.1, ?_⟩, rfl⟩ <;> omega

/-- Witness for claim C3 at the triple (200, 100, 50) with alpha 9. -/
theorem rgb565_roundtrip_within_step_witness :
    WithinStep 200 (RGB565ToRGBA8888 (RGBA8888ToRGB565 (200, 100, 50, 9))).1 9 ∧
    WithinStep 100 (RGB565ToRGBA8888 (RGBA8888ToRGB565 (200, 100, 50, 9))).2.1 5 ∧
    WithinStep 50 (RGB565ToRGBA8888 (RGBA8888ToRGB565 (200, 100, 50, 9))).2.2.1 9 ∧
    (RGB565ToRGBA8888 (RGBA8888ToRGB565 (200, 100, 50, 9))).2.2.2 = 255 :=
  rgb565_roundtrip_within_step 200 100 50 9 (by decide) (by decide) (by decide)

/-- Claim C10: for every 16-bit packed value, unpacking to 8 bits and
re-packing reproduces the packed value exactly, in both formats. -/
theorem unpack_pack_identity (c : ℕ) (hc : c < 65536) :
    RGBA8888ToRGB565 (RGB565ToRGBA8888 c) = c ∧
    RGBA8888ToRGBA4444 (RGBA4444ToRGBA8888 c) = c := by
  constructor
  · have h5 : (c >>> 11) &&& 0x1f < 32 := by rw [and31]; omega
    have h6 : (c >>> 5) &&& 0x3f < 64 := by rw [and63]; omega
    have hb : (c >>> 0) &&& 0x1f < 32 := by rw [and31]; omega
    show (((expand5 ((c >>> 11) &&& 0x1f) >>> 3) &&& 0x1f) <<< 11) |||
        (((expand6 ((c >>> 5) &&& 0x3f) >>> 2) &&& 0x3f) <<< 5) |||
        ((expand5 ((c >>> 0) &&& 0x1f) >>> 3) &&& 0x1f) = c
    rw [expand5_repack _ h5, expand6_repack _ h6, expand5_repack _ hb]
    rw [pack_or_565 _ _ _ h6 hb]
    simp only [Nat.shiftRight_eq_div_pow, and31, and63]
    omega
  · have h1 : (c >>> 12) &&& 0xf < 16 := by rw [and15]; omega
    have h2 : (c >>> 8) &&& 0xf < 16 := by rw [and15]; omega
    have h3 : (c >>> 4) &&& 0xf < 16 := by rw [and15]; omega
    have h4 : (c >>> 0) &&& 0xf < 16 := by rw [and15]; omega
    show ((expand4 ((c >>> 12) &&& 0xf) >>> 4) <<< 12) |||
        ((expand4 ((c >>> 8) &&& 0xf) >>> 4) <<< 8) |||
        ((expand4 ((c >>> 4) &&& 0xf) >>> 4) <<< 4) |||
        (expand4 ((c >>> 0) &&& 0xf) >>> 4) = c
    rw [expand4_repack _ h1, expand4_repack _ h2, expand4_repack _ h3, expand4_repack _ h4]
    rw [pack_or_4444 _ _ _ _ h2 h3 h4]
    simp only [Nat.shiftRight_eq_div_pow, and15]
    omega

/-- Witness for claim C10 at the packed value 48060. -/
theorem unpack_pack_identity_witness :
    RGBA8888ToRGB565 (RGB565ToRGBA8888 48060) = 48060 ∧
    RGBA8888ToRGBA4444 (RGBA4444ToRGBA8888 48060) = 48060 :=
  unpack_pack_identity 48060 (by decide)

/-- Claim C1 (refuted as stated): the code's quantizer disagrees with the
specification formula clamp(v + round(noise*step - step/2), 0, 255) at
v = 100, noise = 127/128, step = 16. The float bias 7.875 is truncated to 7
by the int8_t parameter conversion, giving 107, while the round-to-nearest
formula gives 108. -/
theorem addNoiseBiased_round_counterexample :
    (addNoiseBiased 100 (127 / 128) 16 : ℤ) ≠ noiseQuantizerSpec 100 (127 / 128) 16 := by
  have harg : (127 / 128 : ℚ) * ((16 : ℕ) : ℚ) - (((16 : ℕ) / 2 : ℕ) : ℚ) = 63 / 8 := by
    norm_num
  have htr : truncTowardZero (63 / 8 : ℚ) = 7 := by
    rw [truncTowardZero, if_pos (by norm_num)]
    norm_num
  have h1 : addNoiseBiased 100 (127 / 128) 16 = 107 := by
    rw [addNoiseBiased, harg, htr]
    decide
  have hr : round ((127 / 128 : ℚ) * ((16 : ℕ) : ℚ) - ((16 : ℕ) : ℚ) / 2) = 8 := by
    rw [show (127 / 128 : ℚ) * ((16 : ℕ) : ℚ) - ((16 : ℕ) : ℚ) / 2 = 63 / 8 by norm_num,
      round_eq]
    norm_num
  have h2 : noiseQuantizerSpec 100 (127 / 128) 16 = 108 := by
    rw [noiseQuantizerSpec, hr]
    decide
  rw [h1, h2]
  decide

/-- Claim C1 (amended): for every channel value and noise value the
quantizer computes clamp(v + trunc(noise*step - step/2), 0, 255), where
trunc truncates toward zero (the C float-to-int8_t conversion) rather than
rounding to nearest, with step 16 on the RGBA4444 path and 8 and 4 on the
RGB565 path. -/
theorem addNoiseBiased_eq_clamp_trunc (v : ℕ) (noise : ℚ) :
    (addNoiseBiased v noise 16 : ℤ)
      = max 0 (min 255 ((v : ℤ) + truncTowardZero (noise * 16 - 8))) ∧
    (addNoiseBiased v noise 8 : ℤ)
      = max 0 (min 255 ((v : ℤ) + truncTowardZero (noise * 8 - 4))) ∧
    (addNoiseBiased v noise 4 : ℤ)
      = max 0 (min 255 ((v : ℤ) + truncTowardZero (noise * 4 - 2))) := by
  refine ⟨?_, ?_, ?_⟩
  · rw [addNoiseBiased, addNoise_eq_clamp,
      show noise * ((16 : ℕ) : ℚ) - (((16 : ℕ) / 2 : ℕ) : ℚ) = noise * 16 - 8 by norm_num]
  · rw [addNoiseBiased, addNoise_eq_clamp,
      show noise * ((8 : ℕ) : ℚ) - (((8 : ℕ) / 2 : ℕ) : ℚ) = noise * 8 - 4 by norm_num]
  · rw [addNoiseBiased, addNoise_eq_clamp,
      show noise * ((4 : ℕ) : ℚ) - (((4 : ℕ) / 2 : ℕ) : ℚ) = noise * 4 - 2 by norm_num]

/-- Claim C7: in both dither paths every channel is the biased quantizer at
the step its target bit depth dictates, and exactly the second (green)
channel takes its bias from (1 - noise) while the other dithered channels
take it from noise; at pixel value 128 and noise 1/4 the flip visibly
separates the green channel from the red one. -/
theorem ditherPixel_green_inverted (p : ℕ × ℕ × ℕ × ℕ) (rnd : ℚ) :
    ditherPixel4444 p rnd =
      (addNoiseBiased p.1 rnd 16, addNoiseBiased p.2.1 (1 - rnd) 16,
       addNoiseBiased p.2.2.1 rnd 16, addNoiseBiased p.2.2.2 rnd 16) ∧
    ditherPixel565 p rnd =
      (addNoiseBiased p.1 rnd 8, addNoiseBiased p.2.1 (1 - rnd) 4,
       addNoiseBiased p.2.2.1 rnd 8, p.2.2.2) ∧
    (ditherPixel4444 (128, 128, 128, 128) (1 / 4)).1
      ≠ (ditherPixel4444 (128, 128, 128, 128) (1 / 4)).2.1 := by
  refine ⟨rfl, rfl, ?_⟩
  have hA : (ditherPixel4444 (128, 128, 128, 128) (1 / 4)).1
      = addNoise 128 (truncTowardZero
          ((1 / 4 : ℚ) * ((16 : ℕ) : ℚ) - (((16 : ℕ) / 2 : ℕ) : ℚ))) := rfl
  have hB : (ditherPixel4444 (128, 128, 128, 128) (1 / 4)).2.1
      = addNoise 128 (truncTowardZero
          ((1 - 1 / 4 : ℚ) * ((16 : ℕ) : ℚ) - (((16 : ℕ) / 2 : ℕ) : ℚ))) := rfl
  have hArgA : (1 / 4 : ℚ) * ((16 : ℕ) : ℚ) - (((16 : ℕ) / 2 : ℕ) : ℚ) = -4 := by norm_num
  have hArgB : (1 - 1 / 4 : ℚ) * ((16 : ℕ) : ℚ) - (((16 : ℕ) / 2 : ℕ) : ℚ) = 4 := by norm_num
  have hTrA : truncTowardZero (-4 : ℚ) = -4 := by
    rw [truncTowardZero, if_neg (by norm_num),
      show ((-4 : ℚ)) = ((-4 : ℤ) : ℚ) by norm_num, Int.ceil_intCast]
  have hTrB : truncTowardZero (4 : ℚ) = 4 := by
    rw [truncTowardZero, if_pos (by norm_num),
      show ((4 : ℚ)) = ((4 : ℤ) : ℚ) by norm_num, Int.floor_intCast]
  rw [hA, hArgA, hTrA, hB, hArgB, hTrB]
  decide

/-- For n = 4 the raw Bayer table is a permutation of 0..15. -/
lemma bayerRaw4_perm : List.Perm (bayerRaw 4) (List.range 16) := by decide

/-- For n = 8 the raw Bayer table is a permutation of 0..63. -/
lemma bayerRaw8_perm : List.Perm (bayerRaw 8) (List.range 64) := by decide

/-- Every raw entry of the 4x4 Bayer table is below 16. -/
lemma bayerRaw4_lt : ∀ x ∈ bayerRaw 4, x < 16 := by decide

/-- Every raw entry of the 8x8 Bayer table is below 64. -/
lemma bayerRaw8_lt : ∀ x ∈ bayerRaw 8, x < 64 := by decide

/-- A normalized entry x/n2 - 0.5 of a rank below n2 lies in [-1/2, 1/2). -/
lemma bayer_entry_bounds (n2 x : ℕ) (h0 : 0 < n2) (hx : x < n2) :
    -(1 / 2) ≤ (x : ℚ) * (1 / (n2 : ℚ)) - 0.5 ∧ (x : ℚ) * (1 / (n2 : ℚ)) - 0.5 < 1 / 2 := by
  have hx1 : (x : ℚ) < (n2 : ℚ) := by exact_mod_cast hx
  have h01 : (0 : ℚ) < (n2 : ℚ) := by exact_mod_cast h0
  have hx0 : (0 : ℚ) ≤ (x : ℚ) := Nat.cast_nonneg x
  have hge : (0 : ℚ) ≤ (x : ℚ) * (1 / (n2 : ℚ)) := by positivity
  have hlt : (x : ℚ) * (1 / (n2 : ℚ)) < 1 := by
    rw [mul_one_div, div_lt_one h01]
    exact hx1
  rw [show (0.5 : ℚ) = 1 / 2 by norm_num]
  constructor
  · linarith
  · linarith

/-- Claim C5: for n = 4 and n = 8 the computed Bayer threshold map has
exactly n^2 entries, these form a permutation of the normalized set
k/n^2 - 1/2 for k = 0 .. n^2 - 1, and every entry lies in [-1/2, 1/2). -/
theorem computeBayerThresholdMap_perm_bounds :
    ((computeBayerThresholdMap 4).length = 16 ∧
      List.Perm (computeBayerThresholdMap 4)
        ((List.range 16).map (fun k => (k : ℚ) / 16 - 1 / 2)) ∧
      ∀ v ∈ computeBayerThresholdMap 4, -(1 / 2) ≤ v ∧ v < 1 / 2) ∧
    ((computeBayerThresholdMap 8).length = 64 ∧
      List.Perm (computeBayerThresholdMap 8)
        ((List.range 64).map (fun k => (k : ℚ) / 64 - 1 / 2)) ∧
      ∀ v ∈ computeBayerThresholdMap 8, -(1 / 2) ≤ v ∧ v < 1 / 2) := by
  have hf4 : (fun v : ℕ => (v : ℚ) * (1 / ((4 * 4 : ℕ) : ℚ)) - 0.5)
      = fun k : ℕ => (k : ℚ) / 16 - 1 / 2 := by
    funext v
    norm_num [mul_one_div]
  have hf8 : (fun v : ℕ => (v : ℚ) * (1 / ((8 * 8 : ℕ) : ℚ)) - 0.5)
      = fun k : ℕ => (k : ℚ) / 64 - 1 / 2 := by
    funext v
    norm_num [mul_one_div]
  refine ⟨⟨rfl, ?_, ?_⟩, ⟨rfl, ?_, ?_⟩⟩
  · show List.Perm ((bayerRaw 4).map (fun v : ℕ => (v : ℚ) * (1 / ((4 * 4 : ℕ) : ℚ)) - 0.5)) _
    rw [hf4]
    exact List.Perm.map _ bayerRaw4_perm
  · intro v hv
    rw [show computeBayerThresholdMap 4
        = (bayerRaw 4).map (fun v : ℕ => (v : ℚ) * (1 / ((4 * 4 : ℕ) : ℚ)) - 0.5) from rfl,
      List.mem_map] at hv
    obtain ⟨x, hx, rfl⟩ := hv
    exact bayer_entry_bounds (4 * 4) x (by norm_num) (by have := bayerRaw4_lt x hx; omega)
  · show List.Perm ((bayerRaw 8).map (fun v : ℕ => (v : ℚ) * (1 / ((8 * 8 : ℕ) : ℚ)) - 0.5)) _
    rw [hf8]
    exact List.Perm.map _ bayerRaw8_perm
  · intro v hv
    rw [show computeBayerThresholdMap 8
        = (bayerRaw 8).map (fun v : ℕ => (v : ℚ) * (1 / ((8 * 8 : ℕ) : ℚ)) - 0.5) from rfl,
      List.mem_map] at hv
    obtain ⟨x, hx, rfl⟩ := hv
    exact bayer_entry_bounds (8 * 8) x (by norm_num) (by have := bayerRaw8_lt x hx; omega)
